import Mathlib

/-!
Shallow embedding of `src/parse_tree.py` (class `ParseTree`): the parse-tree
binarizer and label-driven composition engine of the NLI hyponymy pipeline.

Vectors are modelled as `List Int`; the `numpy` arrays of the source only
matter here through which binary operator combines them, so any concrete
vector type with decidable equality is adequate.  Machine-level float
behaviour is not needed by any claim.
-/

/-- A word vector (`np.array` in the source). -/
abbrev Vec := List Int

/-- A binary composition operator on vectors (`hl.mult`, `hl.mmult1`, ...). -/
abbrev Op := Vec → Vec → Vec

/-- A value that can sit in a child slot of an `nltk.Tree` node: a token
string (before evaluation), a vector, or `None` (the absence marker). -/
inductive Payload where
  | tok : String → Payload
  | vec : Vec → Payload
  | absent : Payload
deriving DecidableEq, Repr

/-- An `nltk.Tree`: a child is either a bare payload (usually a token
string) or a labelled node with an ordered list of children. -/
inductive NTree where
  | pl : Payload → NTree
  | node : String → List NTree → NTree

/-- Source `ParseTree.ignore_labels` (src/parse_tree.py line 18). -/
def ignore_labels : List String := ["ls", "pos", ".", "dt", ","]

/-- Source `ParseTree.hadamard_labels` (line 19); declared by the class but never
consulted by any method in src/parse_tree.py. -/
def hadamard_labels : List String := ["ex", "cd", "md", "pdt", "prp", "prp$", "rp", "uh", "to"]

/-- Source `ParseTree.adjective_labels` (line 20). -/
def adjective_labels : List String := ["in", "jj"]

/-- The engine's external collaborators: the vector source
(`self.word_vectors.safe_lookup`, whose class is not under src/) and the
projection operator `hl.mmult1` imported from the hyponymy library (also
not under src/).  Modelled from the spec: the Vector Source contract is
`lookup(token) -> Vector | Absent` and `mmult1` is "a directional
projection operator"; both are kept abstract as configuration fields since
their definitions live outside src/. -/
structure Cfg where
  word_vectors : String → Option Vec
  mmult1 : Op

/-- Source `ParseTree.__binary_operation` (lines 60-68): label-driven operator
selection.  `none` models the `lambda x, y: None` branch; membership tests
are exact string comparison against the lowercase label lists, as in the
source. -/
def binary_operation (default_op : Op) (label1 label2 : String) : Vec → Vec → Option Vec :=
  if label1 ∈ ignore_labels then
    if label2 ∈ ignore_labels then
      fun _ _ => none
    else
      fun _ y => some y
  else if label2 ∈ ignore_labels then
    fun x _ => some x
  else
    fun x y => some (default_op x y)

/-- Source `tree.label()` on a child: defined only on nodes (on a bare payload the
source would raise `AttributeError`). -/
def labelOf : NTree → Option String
  | .node l _ => some l
  | .pl _ => none

/-- Resolution of a node's first child slot into a vector-or-absent, as done
inline in `__evaluate_2` (lines 98-104): a token string goes through
`safe_lookup`, a vector stays, `None` stays absent. -/
def resolve (cfg : Cfg) : Payload → Option Vec
  | .tok s => cfg.word_vectors s
  | .vec v => some v
  | .absent => none

/-- Wrap an optional vector back into a payload slot (`None` becomes the
absence marker). -/
def payloadOf : Option Vec → Payload
  | some v => .vec v
  | none => .absent

/-- Source `ParseTree.__evaluate_2` (lines 94-115).  Both arguments must be nodes
whose first child is a payload slot: on a bare payload the source raises
`AttributeError` at `tree.label()`, and a node-valued first child never
occurs (every element handed to `__evaluate_2` is either a leaf node
`Tree(lbl, [token])` or an evaluated result `Tree(lbl, [payload])`); both
are modelled as `none`. -/
def evaluate_2 (cfg : Cfg) (default_op : Op) (tree1 tree2 : NTree) (parent_label : String) :
    Option NTree :=
  match tree1, tree2 with
  | .node label1 (.pl p1 :: _), .node label2 (.pl p2 :: _) =>
    let vector1 := resolve cfg p1
    let vector2 := resolve cfg p2
    let operation := binary_operation default_op label1 label2
    match vector1, vector2 with
    | none, none => some (.node parent_label [.pl .absent])
    | none, some w2 => some (.node parent_label [.pl (.vec w2)])
    | some w1, none => some (.node parent_label [.pl (.vec w1)])
    | some w1, some w2 => some (.node parent_label [.pl (payloadOf (operation w1 w2))])
  | _, _ => none

/-- Python's `str.lower()` on the ASCII part-of-speech labels used here:
character-wise ASCII lowercasing. -/
def lowerString (s : String) : String := ⟨s.data.map Char.toLower⟩

/-- Source `ParseTree.__is_adjective` (lines 170-175): lowercases the label before
testing membership in the adjective list. -/
def is_adjective (label : String) : Bool :=
  if label = "" then false
  else decide (lowerString label ∈ adjective_labels)

/-- Source `ParseTree.__contains_adjective` (lines 143-149): scans the children's
labels, stopping at the first adjective.  `tree.label()` on a bare payload
would raise, hence the `Option`. -/
def contains_adjective : List NTree → Option Bool
  | [] => some false
  | t :: ts =>
    match labelOf t with
    | none => none
    | some l => if is_adjective l then some true else contains_adjective ts

/-- Source `ParseTree.__tree_is_leaf` (lines 177-182): a node of length 1 whose
single element is not a `Tree`.  For a bare token string, `len` is the
character count and indexing yields a character, so a one-character string
also tests as a leaf; `len(None)` would raise (absent never appears as a
direct child of an unevaluated node) and a vector child likewise never
occurs there, both modelled as `false`. -/
def tree_is_leaf : NTree → Bool
  | .node _ [.pl _] => true
  | .node _ _ => false
  | .pl (.tok s) => s.length == 1
  | .pl _ => false

/-- Source `tree[0]` on an evaluated fold result (line 126/129): the first child of
a node; on a bare token string, its first character. -/
def firstChild : NTree → Option NTree
  | .node _ (c :: _) => some c
  | .node _ [] => none
  | .pl (.tok s) =>
    match s.toList with
    | ch :: _ => some (.pl (.tok (String.singleton ch)))
    | [] => none
  | .pl _ => none

/-- Source `ParseTree.__evaluate_left2right` (lines 131-135), body of the loop:
`current_tree = evaluate_2(current_tree, tree, current_tree.label())`. -/
def left2right_go (cfg : Cfg) (default_op : Op) : NTree → List NTree → Option NTree
  | current, [] => some current
  | current, t :: ts =>
    match labelOf current with
    | none => none
    | some lc =>
      match evaluate_2 cfg default_op current t lc with
      | none => none
      | some r => left2right_go cfg default_op r ts

/-- Source `ParseTree.__evaluate_left2right` (lines 131-135): start from the first
child (`tree_list[0]`; an empty list would raise `IndexError`). -/
def evaluate_left2right (cfg : Cfg) (default_op : Op) : List NTree → Option NTree
  | [] => none
  | c :: rest => left2right_go cfg default_op c rest

/-- Source `ParseTree.__evaluate_right2left` (lines 137-141): start from the last
child and walk the remaining children right to left, each step doing
`current_tree = evaluate_2(tree, current_tree, current_tree.label())`. -/
def evaluate_right2left (cfg : Cfg) (default_op : Op) : List NTree → Option NTree
  | [] => none
  | [c] => some c
  | c :: rest =>
    match evaluate_right2left cfg default_op rest with
    | none => none
    | some r =>
      match labelOf r with
      | none => none
      | some lr => evaluate_2 cfg default_op c r lr

/-- Source `ParseTree.__evaluate_greater_than_2` (lines 117-129).  The state of the
mutable field `self.default_op` is threaded explicitly: the function takes
the current value and returns the value the field holds afterwards.  The
adjective branch performs the source's save / set-to-`hl.mmult1` / restore
sequence; the assert guard (`len(tree_list) > 2`) is modelled as `none` on
failure. -/
def evaluate_greater_than_2 (cfg : Cfg) (default_op : Op) (tree_list : List NTree)
    (parent_label : String) : Option (NTree × Op) :=
  if tree_list.length > 2 then
    match contains_adjective tree_list with
    | none => none
    | some b =>
      if b then
        let previous_default_op := default_op
        let active := cfg.mmult1
        match evaluate_right2left cfg active tree_list with
        | none => none
        | some evaluated_tree =>
          match firstChild evaluated_tree with
          | none => none
          | some x => some (.node parent_label [x], previous_default_op)
      else
        match evaluate_left2right cfg default_op tree_list with
        | none => none
        | some evaluated_tree =>
          match firstChild evaluated_tree with
          | none => none
          | some x => some (.node parent_label [x], default_op)
  else none

/-- The child-resolution done by the single-child branch of `__evaluate`
(lines 84-87): a token string goes through `safe_lookup`, anything else is
kept as-is. -/
def resolve_child (cfg : Cfg) : NTree → NTree
  | .pl (.tok s) => .pl (payloadOf (cfg.word_vectors s))
  | other => other

/-- The child-collection loop of `ParseTree.__evaluate` (lines 76-81),
abstracted over the recursive evaluator so the recursion is structural on
the child list: leaves are kept, other children are evaluated, and the
mutable `default_op` state is threaded left to right. -/
def eval_children_with (ev : Op → NTree → Option (NTree × Op)) :
    Op → List NTree → Option (List NTree × Op)
  | default_op, [] => some ([], default_op)
  | default_op, child :: cs =>
    if tree_is_leaf child then
      match eval_children_with ev default_op cs with
      | none => none
      | some (ts, opOut) => some (child :: ts, opOut)
    else
      match ev default_op child with
      | none => none
      | some (c2, op1) =>
        match eval_children_with ev op1 cs with
        | none => none
        | some (ts, opOut) => some (c2 :: ts, opOut)

/-- Source `ParseTree.__evaluate` (lines 70-92), with a structural fuel argument
bounding the recursion depth (the Python recursion is bounded by the tree
depth).  Evaluating a bare payload is `none`: on a multi-character string
the source ends up calling `.label()` on a character and raises, and a
vector or `None` in tree position likewise has no defined evaluation.  The
single-child branch mirrors lines 83-87 (`tree_list[0][0]`, lookup if it is
a string, rewrap under the current node's label); note the absence of any
`None` check there.  The mutable `self.default_op` is threaded as in
`evaluate_greater_than_2`. -/
def evaluate_tree (cfg : Cfg) : Nat → Op → NTree → Option (NTree × Op)
  | 0, _, _ => none
  | _ + 1, _, .pl _ => none
  | fuel + 1, default_op, .node lbl children =>
    match eval_children_with (evaluate_tree cfg fuel) default_op children with
    | none => none
    | some (tree_list, op1) =>
      match tree_list with
      | [t0] =>
        match t0 with
        | .node _ (c :: _) => some (.node lbl [resolve_child cfg c], op1)
        | .node _ [] => none
        | .pl (.tok s) =>
          match s.toList with
          | ch :: _ => some (.node lbl [.pl (payloadOf (cfg.word_vectors (String.singleton ch)))], op1)
          | [] => none
        | .pl _ => none
      | [t1, t2] =>
        match evaluate_2 cfg op1 t1 t2 lbl with
        | none => none
        | some r => some (r, op1)
      | l => evaluate_greater_than_2 cfg op1 l lbl

/-- Source `ParseTree.evaluate` (lines 30-32): runs `__evaluate` on the stored tree
and replaces `self.data` with the result; returns the new data together
with the final value of the `default_op` field. -/
def ParseTree.evaluate (cfg : Cfg) (fuel : Nat) (default_op : Op) (data : NTree) :
    Option (NTree × Op) :=
  evaluate_tree cfg fuel default_op data

/-- The `reduce` loop of `ParseTree.tree_to_binary` (line 44), abstracted
over the recursive call: each step pairs the accumulated result with the
next child, applying `tree_to_binary` to both at pairing time, and wraps
them under the original node's label. -/
def tree_to_binary_go (tb : NTree → Option NTree) (label : String) :
    NTree → List NTree → Option NTree
  | acc, [] => some acc
  | acc, y :: ys =>
    match tb acc with
    | none => none
    | some a =>
      match tb y with
      | none => none
      | some b => tree_to_binary_go tb label (.node label [a, b]) ys

/-- Source `ParseTree.tree_to_binary` (lines 34-44), with a structural fuel bound
(the `reduce` re-binarizes its own intermediate results, so the recursion is
not structural on the tree).  A bare token string is returned unchanged
(`isinstance(tree, str)`); a single-child node is collapsed into the
binarization of its child, discarding the node; a node with two or more
children is left-folded into nested binary nodes carrying the node's label.
`len()` on an empty node's `reduce` raises `TypeError`, and a vector or
`None` in tree position never occurs before binarization; both are `none`. -/
def tree_to_binary : Nat → NTree → Option NTree
  | 0, _ => none
  | _ + 1, .pl (.tok s) => some (.pl (.tok s))
  | _ + 1, .pl _ => none
  | _ + 1, .node _ [] => none
  | fuel + 1, .node _ [c] => tree_to_binary fuel c
  | fuel + 1, .node label (c1 :: c2 :: rest) =>
    tree_to_binary_go (tree_to_binary fuel) label c1 (c2 :: rest)

/-- A token of the bracketed constituency format: an opening bracket, a
closing bracket, or an atom. -/
inductive BTok where
  | lparen : BTok
  | rparen : BTok
  | atom : String → BTok
deriving DecidableEq

/-- Tokenizer for the bracketed format: brackets are their own tokens,
whitespace separates atoms. -/
def tokenize_go : List Char → String → List BTok
  | [], acc => if acc = "" then [] else [.atom acc]
  | c :: cs, acc =>
    let flush : List BTok := if acc = "" then [] else [.atom acc]
    if c = '(' then flush ++ (.lparen :: tokenize_go cs "")
    else if c = ')' then flush ++ (.rparen :: tokenize_go cs "")
    else if c = ' ' ∨ c = '\t' ∨ c = '\n' then flush ++ tokenize_go cs ""
    else tokenize_go cs (acc.push c)

/-- Tokenize a bracketed constituency string. -/
def tokenize (s : String) : List BTok := tokenize_go s.toList ""

/-- Child-sequence parser, abstracted over the node parser so the recursion
is structural on the fuel: atoms become bare token leaves, opening brackets
start subtrees, anything else ends the sequence. -/
def parse_children_with (p : List BTok → Option (NTree × List BTok)) :
    Nat → List BTok → Option (List NTree × List BTok)
  | 0, _ => none
  | fuel + 1, toks =>
    match toks with
    | .atom s :: rest =>
      match parse_children_with p fuel rest with
      | none => none
      | some (cs, rest2) => some (.pl (.tok s) :: cs, rest2)
    | .lparen :: _ =>
      match p toks with
      | none => none
      | some (c, rest1) =>
        match parse_children_with p fuel rest1 with
        | none => none
        | some (cs, rest2) => some (c :: cs, rest2)
    | _ => some ([], toks)

/-- Modelled from the spec: `nltk.Tree.fromstring` (an external library the
source calls at line 186), parsing "standard parenthesized constituency
notation, `(LABEL (LABEL token) ...)`, arbitrary nesting and branching
factor".  A node is an opening bracket, an optional atom as label (empty
when absent), a child sequence, and a closing bracket. -/
def parse_node : Nat → List BTok → Option (NTree × List BTok)
  | 0, _ => none
  | fuel + 1, .lparen :: rest =>
    let labelRest : String × List BTok :=
      match rest with
      | .atom s :: r => (s, r)
      | r => ("", r)
    match parse_children_with (parse_node fuel) (fuel + 1) labelRest.2 with
    | none => none
    | some (cs, rest2) =>
      match rest2 with
      | .rparen :: rest3 => some (.node labelRest.1 cs, rest3)
      | _ => none
  | _ + 1, _ => none

/-- Modelled from the spec: the whole-string entry point of
`nltk.Tree.fromstring`; the full token stream must be consumed, otherwise
the parse fails ("malformed bracket nesting is a parse failure"). -/
def fromstring (s : String) : Option NTree :=
  let toks := tokenize s
  match parse_node (toks.length + 1) toks with
  | some (t, []) => some t
  | _ => none

/-- Source `ParseTree.pos_string_to_binary_tree` (lines 184-187): despite its name
it only parses the bracketed string; no binarization is applied. -/
def pos_string_to_binary_tree (pos_string : String) : Option NTree :=
  fromstring pos_string

/-- The exception surfaced by a failed construction.  The source's flat path
uses a bare `assert` (line 54), which raises Python's `AssertionError`;
`shapeMismatchError` is the error the spec names for this condition — no
such class exists anywhere in the source and it is included here only so
statements can compare the two; `parseError` stands for the parse failure
raised out of `Tree.fromstring`. -/
inductive PyErr where
  | assertionError : PyErr
  | shapeMismatchError : PyErr
  | parseError : PyErr
deriving DecidableEq

/-- Python's `str.split(sep)` with an explicit one-character separator, as
used by `from_sentence` (the default delimiter is the single space):
consecutive separators produce empty tokens and the empty string yields one
empty token. -/
def split_go (delimiter : Char) : List Char → List Char → List String
  | [], acc => [⟨acc.reverse⟩]
  | c :: cs, acc =>
    if c = delimiter then ⟨acc.reverse⟩ :: split_go delimiter cs []
    else split_go delimiter cs (c :: acc)

/-- Split a sentence on a one-character delimiter, Python `str.split`
style. -/
def splitSentence (delimiter : Char) (s : String) : List String :=
  split_go delimiter s.data []

/-- Source `ParseTree.from_sentence` (lines 46-58), restricted to the `data` field
of the object it builds.  When the sentence contains no `(`, it is split on
the delimiter; with tags, `assert len(tags) == len(leaves)` raises
`AssertionError` on mismatch, otherwise each token is wrapped under its tag
(or the empty label) and everything under a synthetic `"Root"`.  Otherwise
the sentence is parsed as a bracketed string. -/
def from_sentence (sentence : String) (delimiter : Char) (tags : Option (List String)) :
    Except PyErr NTree :=
  if ¬ ('(' ∈ sentence.data) then
    let leaves := splitSentence delimiter sentence
    match tags with
    | none => .ok (.node "Root" (leaves.map (fun leaf => .node "" [.pl (.tok leaf)])))
    | some tags =>
      if tags.length = leaves.length then
        .ok (.node "Root" ((tags.zip leaves).map (fun p => .node p.1 [.pl (.tok p.2)])))
      else
        .error .assertionError
  else
    match pos_string_to_binary_tree sentence with
    | some t => .ok t
    | none => .error .parseError

/-- Modelled from the spec (§4.3): one step of the multi-child fold as the
spec describes it, with the pairing label of every step equal to the
original parent's label ("the label of the running composite node (which
equals `parent_label`, since each step wraps the result under
`parent_label`)").  Used only to compare against the source's fold. -/
def spec_left2right_go (cfg : Cfg) (default_op : Op) (parent_label : String) :
    NTree → List NTree → Option NTree
  | current, [] => some current
  | current, t :: ts =>
    match evaluate_2 cfg default_op current t parent_label with
    | none => none
    | some r => spec_left2right_go cfg default_op parent_label r ts

/-- Modelled from the spec (§4.3): the left-to-right fold with every step
labelled by the parent label. -/
def spec_left2right (cfg : Cfg) (default_op : Op) (parent_label : String) :
    List NTree → Option NTree
  | [] => none
  | c :: rest => spec_left2right_go cfg default_op parent_label c rest

/-- Modelled from the spec (§4.3): the right-to-left fold with every step
labelled by the parent label. -/
def spec_right2left (cfg : Cfg) (default_op : Op) (parent_label : String) :
    List NTree → Option NTree
  | [] => none
  | [c] => some c
  | c :: rest =>
    match spec_right2left cfg default_op parent_label rest with
    | none => none
    | some r => evaluate_2 cfg default_op c r parent_label

/-- Modelled from the spec (§4.3): the more-than-two-children evaluation
with each fold step labelled by the parent label, as claim C7's reading of
the spec requires. -/
def spec_greater_than_2 (cfg : Cfg) (default_op : Op) (tree_list : List NTree)
    (parent_label : String) : Option NTree :=
  if tree_list.length > 2 then
    match contains_adjective tree_list with
    | none => none
    | some b =>
      if b then
        match spec_right2left cfg cfg.mmult1 parent_label tree_list with
        | none => none
        | some r =>
          match firstChild r with
          | none => none
          | some x => some (.node parent_label [x])
      else
        match spec_left2right cfg default_op parent_label tree_list with
        | none => none
        | some r =>
          match firstChild r with
          | none => none
          | some x => some (.node parent_label [x])
  else none

/-- Number of children of the root node. -/
def rootChildCount : NTree → Nat
  | .pl _ => 0
  | .node _ cs => cs.length

/-- The class of strictly binary trees, indexed by height: every internal
node has exactly two children and every leaf is a bare token string.  This
is the class on which `tree_to_binary` is shape-preserving. -/
inductive StrictBinary : Nat → NTree → Prop where
  | tok : ∀ (n : Nat) (s : String), StrictBinary n (.pl (.tok s))
  | node : ∀ (n : Nat) (l : String) (a b : NTree),
      StrictBinary n a → StrictBinary n b → StrictBinary (n + 1) (.node l [a, b])

/-- A concrete default operator (concatenation) — convenient because it is
injective in both operands, so evaluation orders are observable. -/
def opCat : Op := fun x y => x ++ y

/-- A concrete stand-in for the projection operator `hl.mmult1`,
distinguishable from `opCat`. -/
def opProj : Op := fun x y => x ++ 0 :: y

/-- A concrete vector source for witnesses and counterexamples; "the"
deliberately has no vector (resolves to Absent). -/
def wv0 : String → Option Vec := fun s =>
  if s = "a" then some [1]
  else if s = "b" then some [2]
  else if s = "c" then some [3]
  else if s = "cat" then some [4]
  else if s = "sits" then some [5]
  else none

/-- A concrete engine configuration. -/
def cfg0 : Cfg := ⟨wv0, opProj⟩

/-- Leaf node `(dt a)`. -/
def t_dt : NTree := .node "dt" [.pl (.tok "a")]

/-- Leaf node `(nn b)`. -/
def t_nn : NTree := .node "nn" [.pl (.tok "b")]

/-- Leaf node `(vb c)`. -/
def t_vb : NTree := .node "vb" [.pl (.tok "c")]

/-- Leaf node `(jj a)`. -/
def t_jj : NTree := .node "jj" [.pl (.tok "a")]

/-- A three-child list with no adjective label and an ignore label first. -/
def tl7 : List NTree := [t_dt, t_nn, t_vb]

/-- A three-child list containing an adjective label. -/
def tlAdj : List NTree := [t_jj, t_nn, t_vb]

/-- The end-to-end bracketed example tree of spec §8 (with short labels):
`(S (NP (D the) (N cat)) (V sits))`. -/
def t5 : NTree :=
  .node "S" [.node "NP" [.node "D" [.pl (.tok "the")], .node "N" [.pl (.tok "cat")]],
    .node "V" [.pl (.tok "sits")]]

/-- A parsed ternary tree: `(S (A a) (B b) (C c))`. -/
def t6 : NTree :=
  .node "S" [.node "A" [.pl (.tok "a")], .node "B" [.pl (.tok "b")], .node "C" [.pl (.tok "c")]]

/-- A successful `__evaluate_2` always yields a node labelled by the given
parent label whose single child is a payload slot. -/
theorem evaluate_2_shape {cfg : Cfg} {default_op : Op} {t1 t2 : NTree} {parent_label : String}
    {r : NTree} (h : evaluate_2 cfg default_op t1 t2 parent_label = some r) :
    ∃ pay, r = .node parent_label [.pl pay] := by
  unfold evaluate_2 at h
  split at h
  · dsimp only at h
    split at h <;> exact ⟨_, (Option.some.inj h).symm⟩
  · exact Option.noConfusion h

/-- A successful `__evaluate_2` result carries the given parent label. -/
theorem evaluate_2_label {cfg : Cfg} {default_op : Op} {t1 t2 : NTree} {parent_label : String}
    {r : NTree} (h : evaluate_2 cfg default_op t1 t2 parent_label = some r) :
    labelOf r = some parent_label := by
  obtain ⟨pay, rfl⟩ := evaluate_2_shape h
  rfl

/-- Source method `__evaluate_greater_than_2` restores the `default_op` field: the value
it hands back is the value it received, in both fold directions. -/
theorem evaluate_greater_than_2_op {cfg : Cfg} {default_op : Op} {tree_list : List NTree}
    {parent_label : String} {r : NTree} {opOut : Op}
    (h : evaluate_greater_than_2 cfg default_op tree_list parent_label = some (r, opOut)) :
    opOut = default_op := by
  unfold evaluate_greater_than_2 at h
  split at h
  · split at h
    · exact Option.noConfusion h
    · split at h
      · dsimp only at h
        split at h
        · exact Option.noConfusion h
        · split at h
          · exact Option.noConfusion h
          · exact congrArg Prod.snd (Option.some.inj h) |>.symm
      · split at h
        · exact Option.noConfusion h
        · split at h
          · exact Option.noConfusion h
          · exact congrArg Prod.snd (Option.some.inj h) |>.symm
  · exact Option.noConfusion h

/-- A successful `__evaluate_greater_than_2` yields a node labelled by the
parent label with a single child. -/
theorem evaluate_greater_than_2_shape {cfg : Cfg} {default_op : Op} {tree_list : List NTree}
    {parent_label : String} {r : NTree} {opOut : Op}
    (h : evaluate_greater_than_2 cfg default_op tree_list parent_label = some (r, opOut)) :
    ∃ x, r = .node parent_label [x] := by
  unfold evaluate_greater_than_2 at h
  split at h
  · split at h
    · exact Option.noConfusion h
    · split at h
      · dsimp only at h
        split at h
        · exact Option.noConfusion h
        · split at h
          · exact Option.noConfusion h
          · exact ⟨_, (congrArg Prod.fst (Option.some.inj h)).symm⟩
      · split at h
        · exact Option.noConfusion h
        · split at h
          · exact Option.noConfusion h
          · exact ⟨_, (congrArg Prod.fst (Option.some.inj h)).symm⟩
  · exact Option.noConfusion h

/-- The child-collection loop threads the `default_op` state through: if
the evaluator it is given never changes the state, neither does it. -/
theorem eval_children_with_op {ev : Op → NTree → Option (NTree × Op)}
    (hev : ∀ dop t p, ev dop t = some p → p.2 = dop) :
    ∀ (dop : Op) (l : List NTree) (q : List NTree × Op),
      eval_children_with ev dop l = some q → q.2 = dop := by
  intro dop l
  induction l generalizing dop with
  | nil =>
    intro q h
    unfold eval_children_with at h
    exact congrArg Prod.snd (Option.some.inj h) |>.symm
  | cons c cs ih =>
    intro q h
    unfold eval_children_with at h
    split at h
    · split at h
      · exact Option.noConfusion h
      · next ts opOut heq =>
        rw [← Option.some.inj h]
        exact ih dop (ts, opOut) heq
    · split at h
      · exact Option.noConfusion h
      · next c2 op1 heq1 =>
        split at h
        · exact Option.noConfusion h
        · next ts opOut heq2 =>
          rw [← Option.some.inj h]
          exact (ih op1 (ts, opOut) heq2).trans (hev dop c (c2, op1) heq1)

/-- The running composite of `__evaluate_left2right` keeps the label of the
tree it started from: each step wraps under `current_tree.label()`. -/
theorem left2right_go_label {cfg : Cfg} {default_op : Op} :
    ∀ (rest : List NTree) (current r : NTree),
      left2right_go cfg default_op current rest = some r → labelOf r = labelOf current := by
  intro rest
  induction rest with
  | nil =>
    intro current r h
    unfold left2right_go at h
    rw [← Option.some.inj h]
  | cons t ts ih =>
    intro current r h
    unfold left2right_go at h
    split at h
    · exact Option.noConfusion h
    · next lc hlc =>
      split at h
      · exact Option.noConfusion h
      · next r1 hr1 =>
        rw [ih r1 r h, evaluate_2_label hr1, hlc]

/-- The running composite of `__evaluate_right2left` keeps the label of the
last child of the list. -/
theorem right2left_label {cfg : Cfg} {default_op : Op} :
    ∀ (tree_list : List NTree) (r : NTree),
      evaluate_right2left cfg default_op tree_list = some r →
        ∃ lastc, tree_list.getLast? = some lastc ∧ labelOf r = labelOf lastc := by
  intro tree_list
  induction tree_list with
  | nil => intro r h; exact Option.noConfusion h
  | cons c rest ih =>
    intro r h
    match rest with
    | [] =>
      refine ⟨c, rfl, ?_⟩
      unfold evaluate_right2left at h
      rw [← Option.some.inj h]
    | c2 :: rest2 =>
      unfold evaluate_right2left at h
      split at h
      · exact Option.noConfusion h
      · next r0 hr0 =>
        split at h
        · exact Option.noConfusion h
        · next lr hlr =>
          obtain ⟨lastc, hlast, hlbl⟩ := ih r0 hr0
          exact ⟨lastc, by rw [List.getLast?_cons_cons]; exact hlast,
            by rw [evaluate_2_label h, ← hlbl, hlr]⟩

/-- Claim C1: on a node with more than two children, if some child's label
is in the adjective set, evaluation is the right-to-left fold with the
projection operator `mmult1` as the active default operator for every step,
otherwise the left-to-right fold with the configured default operator; in
both cases the `default_op` field afterwards equals its value before. -/
theorem claim_C1 (cfg : Cfg) (default_op : Op) (tree_list : List NTree)
    (parent_label : String) (hlen : 2 < tree_list.length) :
    (contains_adjective tree_list = some true →
      evaluate_greater_than_2 cfg default_op tree_list parent_label =
        (evaluate_right2left cfg cfg.mmult1 tree_list).bind
          (fun r => (firstChild r).map (fun x => (NTree.node parent_label [x], default_op))))
    ∧ (contains_adjective tree_list = some false →
      evaluate_greater_than_2 cfg default_op tree_list parent_label =
        (evaluate_left2right cfg default_op tree_list).bind
          (fun r => (firstChild r).map (fun x => (NTree.node parent_label [x], default_op)))) := by
  constructor <;> intro hadj <;>
  · unfold evaluate_greater_than_2
    rw [if_pos hlen, hadj]
    cases hr : evaluate_right2left cfg cfg.mmult1 tree_list <;>
      cases hl : evaluate_left2right cfg default_op tree_list <;>
        simp [hr, hl] <;>
          (cases hx : firstChild _ <;> simp [hx])

/-- Witness for C1: a three-child list containing an adjective label takes
the right-to-left projection fold and hands the original operator back. -/
theorem claim_C1_witness :
    evaluate_greater_than_2 cfg0 opCat tlAdj "S" =
      (evaluate_right2left cfg0 cfg0.mmult1 tlAdj).bind
        (fun r => (firstChild r).map (fun x => (NTree.node "S" [x], opCat))) :=
  (claim_C1 cfg0 opCat tlAdj "S" (by decide)).1 (by rfl)

/-- Claim C2: in a two-child evaluation, two Absent operands give Absent,
and exactly one Absent operand gives the other operand's value unchanged,
for all labels — the label rules are bypassed. -/
theorem claim_C2 (cfg : Cfg) (default_op : Op) (label1 label2 parent_label : String)
    (p1 p2 : Payload) (rest1 rest2 : List NTree) :
    (resolve cfg p1 = none → resolve cfg p2 = none →
      evaluate_2 cfg default_op (.node label1 (.pl p1 :: rest1)) (.node label2 (.pl p2 :: rest2))
        parent_label = some (.node parent_label [.pl .absent]))
    ∧ (∀ w2, resolve cfg p1 = none → resolve cfg p2 = some w2 →
      evaluate_2 cfg default_op (.node label1 (.pl p1 :: rest1)) (.node label2 (.pl p2 :: rest2))
        parent_label = some (.node parent_label [.pl (.vec w2)]))
    ∧ (∀ w1, resolve cfg p1 = some w1 → resolve cfg p2 = none →
      evaluate_2 cfg default_op (.node label1 (.pl p1 :: rest1)) (.node label2 (.pl p2 :: rest2))
        parent_label = some (.node parent_label [.pl (.vec w1)])) := by
  refine ⟨fun h1 h2 => ?_, fun w2 h1 h2 => ?_, fun w1 h1 h2 => ?_⟩ <;>
    simp [evaluate_2, h1, h2]

/-- Witness for C2: an out-of-vocabulary left operand ("the") passes the
right operand's vector through, on labels whose rule would otherwise
combine them. -/
theorem claim_C2_witness :
    evaluate_2 cfg0 opCat (.node "D" [.pl (.tok "the")]) (.node "N" [.pl (.tok "cat")]) "NP" =
      some (.node "NP" [.pl (.vec [4])]) :=
  (claim_C2 cfg0 opCat "D" "N" "NP" (.tok "the") (.tok "cat") [] []).2.1 [4] (by rfl) (by rfl)

/-- Claim C3: the operator selector drops both operands (Absent) when both
labels are ignored, passes the right operand through when only the first is
ignored, passes the left operand through when only the second is ignored,
and otherwise applies the active default operator. -/
theorem claim_C3 (default_op : Op) (label1 label2 : String) (v1 v2 : Vec) :
    (label1 ∈ ignore_labels → label2 ∈ ignore_labels →
      binary_operation default_op label1 label2 v1 v2 = none)
    ∧ (label1 ∈ ignore_labels → label2 ∉ ignore_labels →
      binary_operation default_op label1 label2 v1 v2 = some v2)
    ∧ (label1 ∉ ignore_labels → label2 ∈ ignore_labels →
      binary_operation default_op label1 label2 v1 v2 = some v1)
    ∧ (label1 ∉ ignore_labels → label2 ∉ ignore_labels →
      binary_operation default_op label1 label2 v1 v2 = some (default_op v1 v2)) := by
  refine ⟨fun h1 h2 => ?_, fun h1 h2 => ?_, fun h1 h2 => ?_, fun h1 h2 => ?_⟩ <;>
    simp [binary_operation, h1, h2]

/-- Witness for C3: with the ignored label "dt" on the left, the right
operand passes through exactly. -/
theorem claim_C3_witness :
    binary_operation opCat "dt" "nn" [1] [2] = some [2] :=
  (claim_C3 opCat "dt" "nn" [1] [2]).2.1 (by decide) (by decide)

/-- Counterexample to C4: the operator selector classifies "DT" and "dt"
differently — "dt" is dropped (right operand passes through) while "DT" is
combined with the default operator — so ignore-set membership is not
case-insensitive. -/
theorem claim_C4_counterexample :
    binary_operation opCat "dt" "nn" [1] [2] = some [2]
    ∧ binary_operation opCat "DT" "nn" [1] [2] = some [1, 2]
    ∧ some ([2] : Vec) ≠ some [1, 2] := by
  refine ⟨by decide, by decide, by decide⟩

/-- Claim C4 as amended: only the adjective test lowercases its label, so
adjective classification is case-insensitive (all case variants of "in" and
"jj" are adjectives), while the ignore-set test of the operator selector
compares labels exactly, so an uppercase variant of an ignore label is not
classified as ignored. -/
theorem claim_C4_amended :
    (is_adjective "in" = true ∧ is_adjective "In" = true ∧ is_adjective "iN" = true
      ∧ is_adjective "IN" = true ∧ is_adjective "jj" = true ∧ is_adjective "Jj" = true
      ∧ is_adjective "jJ" = true ∧ is_adjective "JJ" = true)
    ∧ (∀ v1 v2 : Vec, binary_operation opCat "dt" "nn" v1 v2 = some v2)
    ∧ binary_operation opCat "DT" "nn" [1] [2] = some [1, 2] :=
  ⟨by decide, fun v1 v2 => rfl, by decide⟩

/-- Counterexample to C7: in the left-to-right fold the running composite
node carries the label of the first child ("dt"), not the parent's label
("S"); with an ignore label there, the fold result observably differs from
the parent-labelled fold the spec describes. -/
theorem claim_C7_counterexample :
    evaluate_left2right cfg0 opCat tl7 = some (.node "dt" [.pl (.vec [3])])
    ∧ evaluate_greater_than_2 cfg0 opCat tl7 "S" = some (.node "S" [.pl (.vec [3])], opCat)
    ∧ spec_greater_than_2 cfg0 opCat tl7 "S" = some (.node "S" [.pl (.vec [2, 3])])
    ∧ (NTree.node "dt" [.pl (.vec [3])]) ≠ .node "S" [.pl (.vec [3])]
    ∧ (NTree.node "S" [.pl (.vec [3])]) ≠ .node "S" [.pl (.vec [2, 3])] :=
  ⟨by rfl, by rfl, by rfl, by simp, by simp⟩

/-- Claim C7 as amended: the running composite of the left-to-right fold
carries the label of the first child, and that of the right-to-left fold
the label of the last child; only the final wrap restores the parent's
label, so the ignore/pass-through rules at each step see the edge child's
label on the composite side. -/
theorem claim_C7_amended (cfg : Cfg) (default_op : Op) :
    (∀ c rest r, evaluate_left2right cfg default_op (c :: rest) = some r →
      labelOf r = labelOf c)
    ∧ (∀ tree_list r, evaluate_right2left cfg default_op tree_list = some r →
      ∃ lastc, tree_list.getLast? = some lastc ∧ labelOf r = labelOf lastc) :=
  ⟨fun c rest r h => left2right_go_label rest c r h,
   fun tree_list r h => right2left_label tree_list r h⟩

/-- Witness for C7's amended claim: the concrete fold of `tl7` keeps the
first child's label "dt". -/
theorem claim_C7_witness :
    labelOf (.node "dt" [.pl (.vec [3])]) = labelOf t_dt :=
  (claim_C7_amended cfg0 opCat).1 t_dt [t_nn, t_vb] (.node "dt" [.pl (.vec [3])]) (by rfl)

/-- Counterexample to C9: a flat construction with a mismatched tag list
fails with Python's `AssertionError` (the bare `assert` of line 54), not
with the `ShapeMismatchError` the claim names — no such error exists in the
source. -/
theorem claim_C9_counterexample :
    from_sentence "a b" ' ' (some ["x"]) = .error .assertionError
    ∧ PyErr.assertionError ≠ PyErr.shapeMismatchError :=
  ⟨by rfl, by decide⟩

/-- Claim C9 as amended: for every flat-token construction (no bracket in
the sentence) whose supplied tag list's length differs from the token count
obtained by splitting on the delimiter, construction fails with
`AssertionError`. -/
theorem claim_C9_amended (sentence : String) (delimiter : Char) (tags : List String)
    (hflat : ¬ ('(' ∈ sentence.data))
    (hmismatch : tags.length ≠ (splitSentence delimiter sentence).length) :
    from_sentence sentence delimiter (some tags) = .error .assertionError := by
  unfold from_sentence
  rw [if_pos hflat]
  dsimp only
  rw [if_neg hmismatch]

/-- Witness for C9's amended claim: three tokens against two tags. -/
theorem claim_C9_witness :
    from_sentence "a b c" ' ' (some ["x", "y"]) = .error .assertionError :=
  claim_C9_amended "a b c" ' ' ["x", "y"] (by decide) (by decide)

/-- Claim C10: a completed evaluation hands the `default_op` field back
with the value it had before the call, even when adjective-triggered folds
temporarily substituted the projection operator at some nodes (the vector
source reference is a plain parameter of the embedding, untouched by
construction). -/
theorem claim_C10 :
    ∀ (fuel : Nat) (cfg : Cfg) (default_op : Op) (t r : NTree) (opOut : Op),
      evaluate_tree cfg fuel default_op t = some (r, opOut) → opOut = default_op := by
  intro fuel
  induction fuel with
  | zero => intro cfg dop t r o h; exact Option.noConfusion h
  | succ f ih =>
    intro cfg dop t r o h
    match t with
    | .pl p => exact Option.noConfusion h
    | .node lbl children =>
      unfold evaluate_tree at h
      split at h
      · exact Option.noConfusion h
      · next tree_list op1 heq =>
        have hop1 : op1 = dop := by
          refine eval_children_with_op ?_ dop children (tree_list, op1) heq
          intro dop' t' p' hp'
          exact ih cfg dop' t' p'.1 p'.2 (by rw [Prod.mk.eta]; exact hp')
        rw [← hop1]
        split at h
        · split at h
          · exact (congrArg Prod.snd (Option.some.inj h)).symm
          · exact Option.noConfusion h
          · split at h
            · exact (congrArg Prod.snd (Option.some.inj h)).symm
            · exact Option.noConfusion h
          · exact Option.noConfusion h
        · split at h
          · exact Option.noConfusion h
          · exact (congrArg Prod.snd (Option.some.inj h)).symm
        · exact evaluate_greater_than_2_op h

/-- Witness for C10: a flat tree whose adjective fold runs under the
projection operator still returns the original concatenation operator. -/
theorem claim_C10_witness :
    evaluate_tree cfg0 10 opCat (.node "Root" tlAdj) =
      some (.node "Root" [.pl (.vec [1, 0, 2, 0, 3])], opCat) ∧ opCat = opCat :=
  ⟨by rfl, claim_C10 10 cfg0 opCat (.node "Root" tlAdj)
    (.node "Root" [.pl (.vec [1, 0, 2, 0, 3])]) opCat (by rfl)⟩

/-- Counterexample to C5: evaluating the spec's own end-to-end example tree
does not return a tree of identical branching structure — the root of the
input has two children (with further structure below), while the annotated
output is a single node with one payload child. -/
theorem claim_C5_counterexample :
    evaluate_tree cfg0 10 opCat t5 = some (.node "S" [.pl (.vec [4, 5])], opCat)
    ∧ rootChildCount t5 = 2
    ∧ rootChildCount (.node "S" [.pl (.vec [4, 5])]) = 1
    ∧ rootChildCount t5 ≠ rootChildCount (.node "S" [.pl (.vec [4, 5])]) :=
  ⟨by rfl, by rfl, by rfl, by decide⟩

/-- Claim C5 as amended: a successful evaluation of a node collapses it to
a single node that carries the evaluated node's label and exactly one
child (the composed payload); the input's internal structure is not
reproduced. -/
theorem claim_C5_amended (cfg : Cfg) (fuel : Nat) (default_op : Op) (lbl : String)
    (children : List NTree) (r : NTree) (opOut : Op)
    (h : evaluate_tree cfg fuel default_op (.node lbl children) = some (r, opOut)) :
    ∃ x, r = .node lbl [x] := by
  match fuel with
  | 0 => exact Option.noConfusion h
  | f + 1 =>
    unfold evaluate_tree at h
    split at h
    · exact Option.noConfusion h
    · next tree_list op1 heq =>
      split at h
      · split at h
        · exact ⟨_, (congrArg Prod.fst (Option.some.inj h)).symm⟩
        · exact Option.noConfusion h
        · split at h
          · exact ⟨_, (congrArg Prod.fst (Option.some.inj h)).symm⟩
          · exact Option.noConfusion h
        · exact Option.noConfusion h
      · split at h
        · exact Option.noConfusion h
        · next r2 heq2 =>
          obtain ⟨pay, hpay⟩ := evaluate_2_shape heq2
          refine ⟨.pl pay, ?_⟩
          rw [← hpay]
          exact (congrArg Prod.fst (Option.some.inj h)).symm
      · obtain ⟨x, hx⟩ := evaluate_greater_than_2_shape h
        exact ⟨x, hx⟩

/-- Witness for C5's amended claim: the spec's example tree evaluates to a
single node labelled "S" holding one payload. -/
theorem claim_C5_witness :
    ∃ x, (NTree.node "S" [.pl (.vec [4, 5])]) = .node "S" [x] :=
  claim_C5_amended cfg0 10 opCat "S"
    [.node "NP" [.node "D" [.pl (.tok "the")], .node "N" [.pl (.tok "cat")]],
      .node "V" [.pl (.tok "sits")]]
    (.node "S" [.pl (.vec [4, 5])]) opCat (by rfl)

/-- Counterexample to C6: `pos_string_to_binary_tree` applies no
binarization, so a bracketed string with a ternary node hands the engine a
node with three children — the more-than-two-children logic is reachable
from the bracketed path. -/
theorem claim_C6_counterexample :
    pos_string_to_binary_tree "(S (A a) (B b) (C c))" = some t6
    ∧ rootChildCount t6 = 3
    ∧ ¬ (rootChildCount t6 ≤ 2) :=
  ⟨by rfl, by rfl, by decide⟩

/-- Claim C6 as amended: no construction path binarizes (`tree_to_binary`
is never invoked by `__init__` or `from_sentence`), so a bracketed string
with a node of more than two children yields that node unchanged and its
evaluation goes through the more-than-two-children logic. -/
theorem claim_C6_amended :
    pos_string_to_binary_tree "(S (A a) (B b) (C c))" = some t6
    ∧ evaluate_tree cfg0 10 opCat t6 =
        evaluate_greater_than_2 cfg0 opCat
          [.node "A" [.pl (.tok "a")], .node "B" [.pl (.tok "b")], .node "C" [.pl (.tok "c")]] "S"
    ∧ evaluate_tree cfg0 10 opCat t6 = some (.node "S" [.pl (.vec [1, 2, 3])], opCat) :=
  ⟨by rfl, by rfl, by rfl⟩

/-- Counterexample to C8: a tree whose only internal node has one child is
binary in the claim's sense (at most two children per node), yet
`tree_to_binary` collapses it to a bare leaf — the shape changes. -/
theorem claim_C8_counterexample :
    tree_to_binary 5 (.node "NN" [.pl (.tok "cat")]) = some (.pl (.tok "cat"))
    ∧ (NTree.pl (.tok "cat")) ≠ .node "NN" [.pl (.tok "cat")] :=
  ⟨by rfl, by simp⟩

/-- Claim C8 as amended: `tree_to_binary` is the identity (hence
idempotent) on strictly binary trees — every internal node has exactly two
children and every leaf is a bare token — while single-child nodes
(including leaf-wrapping preterminals) are collapsed, changing the shape. -/
theorem claim_C8_amended :
    ∀ (n : Nat) (t : NTree), StrictBinary n t →
      ∀ fuel, n < fuel → tree_to_binary fuel t = some t := by
  intro n t hsb
  induction hsb with
  | tok m s =>
    intro fuel hf
    match fuel, hf with
    | f + 1, _ => rfl
  | node m l a b ha hb iha ihb =>
    intro fuel hf
    match fuel, hf with
    | f + 1, hf =>
      have hm : m < f := Nat.lt_of_succ_lt_succ hf
      show tree_to_binary_go (tree_to_binary f) l a [b] = some (.node l [a, b])
      unfold tree_to_binary_go
      rw [iha f hm, ihb f hm]
      rfl

/-- Witness for C8's amended claim: a two-leaf binary node survives
binarization unchanged. -/
theorem claim_C8_witness :
    tree_to_binary 2 (.node "S" [.pl (.tok "x"), .pl (.tok "y")]) =
      some (.node "S" [.pl (.tok "x"), .pl (.tok "y")]) :=
  claim_C8_amended 1 (.node "S" [.pl (.tok "x"), .pl (.tok "y")])
    (StrictBinary.node 0 "S" _ _ (.tok 0 "x") (.tok 0 "y")) 2 (by decide)

